import Mathlib

/-!
Shallow embedding of `hprof-cat` (src/main.rs): a streaming decoder for the
HPROF binary heap-dump format.  Byte streams are modelled as `List Nat`
(each element one byte), the process's standard output as a `List String`
of printed lines, and the panics of the Rust code (`unwrap`/`expect`) as an
`Except`/`Option` error value carrying the error kind that caused them:
`read_exact` failure = `truncatedInput`, `RecordTag::try_from` failure =
`unknownTag`, symbol-table `get(..).unwrap()` failure = `danglingReference`.
-/

set_option maxRecDepth 100000

namespace HprofCat

/-- Error kinds of the decoder (the causes of the Rust program's panics). -/
inductive ParseError where
  | truncatedInput : ParseError
  | unknownTag : Nat → ParseError
  | danglingReference : ParseError
  deriving DecidableEq, Repr

/-- Big-endian byte-sequence to natural number (`uN::from_be_bytes`). -/
def beBytesToNat (l : List Nat) : Nat :=
  l.foldl (fun acc b => acc * 256 + b) 0

/-- `u32::from_be_bytes` on a 4-byte buffer. -/
def u32_from_be (l : List Nat) : Nat := beBytesToNat l

/-- `u64::from_be_bytes` on an 8-byte buffer. -/
def u64_from_be (l : List Nat) : Nat := beBytesToNat l

/-- `i32::from_be_bytes` on a 4-byte buffer: two's-complement reading. -/
def i32_from_be (l : List Nat) : Int :=
  let v := beBytesToNat l % 4294967296
  if v < 2147483648 then (v : Int) else (v : Int) - 4294967296

/-- `reader.read_exact(&mut buf)` on an `n`-byte buffer: takes exactly `n`
bytes off the stream or fails (`TruncatedInput`). -/
def readExact (n : Nat) (l : List Nat) : Except ParseError (List Nat × List Nat) :=
  if n ≤ l.length then .ok (l.take n, l.drop n) else .error .truncatedInput

/-- The U+FFFD replacement character emitted by lossy UTF-8 decoding. -/
def replacementChar : Char := '�'

/-- State of the byte-at-a-time UTF-8 decoder: either at a sequence
boundary, or inside a multi-byte sequence with `remaining` continuation
bytes still expected after the next one, `acc` the code-point bits read so
far, and `[lo, hi]` the admissible range for the next byte (the UTF-8
validity table narrows the range of the first continuation byte to exclude
overlong encodings and surrogates). -/
inductive Utf8State where
  | start : Utf8State
  | cont (remaining acc lo hi : Nat) : Utf8State

/-- Process one byte at a sequence boundary: ASCII yields its character, a
valid lead byte opens a multi-byte sequence, anything else is a maximal
invalid subpart of length one, replaced by U+FFFD. -/
def utf8StartByte (b : Nat) : List Char × Utf8State :=
  if b < 0x80 then ([Char.ofNat b], .start)
  else if b < 0xC2 then ([replacementChar], .start)
  else if b ≤ 0xDF then ([], .cont 0 (b - 0xC0) 0x80 0xBF)
  else if b ≤ 0xEF then
    ([], .cont 1 (b - 0xE0) (if b = 0xE0 then 0xA0 else 0x80)
      (if b = 0xED then 0x9F else 0xBF))
  else if b ≤ 0xF4 then
    ([], .cont 2 (b - 0xF0) (if b = 0xF0 then 0x90 else 0x80)
      (if b = 0xF4 then 0x8F else 0xBF))
  else ([replacementChar], .start)

/-- `String::from_utf8_lossy`, at the level of the character list: standard
UTF-8 decoding where each maximal invalid subpart is replaced by one
U+FFFD (a byte that fails as a continuation closes the broken sequence
with U+FFFD and is then reconsidered as the start of a new sequence). -/
def utf8DecodeLossyFrom : Utf8State → List Nat → List Char
  | .start, [] => []
  | .cont _ _ _ _, [] => [replacementChar]
  | .start, b :: rest =>
    let p := utf8StartByte b
    p.1 ++ utf8DecodeLossyFrom p.2 rest
  | .cont remaining acc lo hi, b :: rest =>
    if lo ≤ b ∧ b ≤ hi then
      match remaining with
      | 0 => Char.ofNat (acc * 0x40 + (b - 0x80)) :: utf8DecodeLossyFrom .start rest
      | m + 1 => utf8DecodeLossyFrom (.cont m (acc * 0x40 + (b - 0x80)) 0x80 0xBF) rest
    else
      let p := utf8StartByte b
      replacementChar :: (p.1 ++ utf8DecodeLossyFrom p.2 rest)

/-- The whole lossy decode, from the initial state. -/
def utf8DecodeLossy (l : List Nat) : List Char := utf8DecodeLossyFrom .start l

/-- `String::from_utf8_lossy(buf).to_string()`. -/
def from_utf8_lossy (l : List Nat) : String := String.mk (utf8DecodeLossy l)

/-- Standard UTF-8 encoding of one character. -/
def utf8EncodeChar (c : Char) : List Nat :=
  let v := c.toNat
  if v < 0x80 then [v]
  else if v < 0x800 then [0xC0 + v / 0x40, 0x80 + v % 0x40]
  else if v < 0x10000 then
    [0xE0 + v / 0x1000, 0x80 + (v / 0x40) % 0x40, 0x80 + v % 0x40]
  else
    [0xF0 + v / 0x40000, 0x80 + (v / 0x1000) % 0x40, 0x80 + (v / 0x40) % 0x40,
      0x80 + v % 0x40]

/-- Standard UTF-8 encoding of a character list. -/
def utf8EncodeList : List Char → List Nat
  | [] => []
  | c :: cs => utf8EncodeChar c ++ utf8EncodeList cs

/-- Standard UTF-8 encoding of a string (the bytes a valid-UTF-8 text
consists of on the wire). -/
def utf8Encode (s : String) : List Nat := utf8EncodeList s.data

/-- The `RecordTag` enum: the closed set of known record tag bytes. -/
inductive RecordTag where
  | Utf8String | LoadClass | UnloadClass | StackFrame | StackTrace
  | AllocSites | HeapSummary | StartThread | EndThread | HeapDump
  | CpuSamples | ControlSettings | HeapDumpSegment | HeapDumpEnd
  deriving DecidableEq, Repr

/-- `RecordTag::try_from` (via `TryFromPrimitive`): tag byte to variant. -/
def RecordTag.tryFrom : Nat → Option RecordTag
  | 0x01 => some .Utf8String
  | 0x02 => some .LoadClass
  | 0x03 => some .UnloadClass
  | 0x04 => some .StackFrame
  | 0x05 => some .StackTrace
  | 0x06 => some .AllocSites
  | 0x07 => some .HeapSummary
  | 0x0A => some .StartThread
  | 0x0B => some .EndThread
  | 0x0C => some .HeapDump
  | 0x0D => some .CpuSamples
  | 0x0E => some .ControlSettings
  | 0x1C => some .HeapDumpSegment
  | 0x2C => some .HeapDumpEnd
  | _ => none

/-- The text `{:?}` (derived `Debug`) produces for a tag: the variant name. -/
def RecordTag.debugStr : RecordTag → String
  | .Utf8String => "Utf8String"
  | .LoadClass => "LoadClass"
  | .UnloadClass => "UnloadClass"
  | .StackFrame => "StackFrame"
  | .StackTrace => "StackTrace"
  | .AllocSites => "AllocSites"
  | .HeapSummary => "HeapSummary"
  | .StartThread => "StartThread"
  | .EndThread => "EndThread"
  | .HeapDump => "HeapDump"
  | .CpuSamples => "CpuSamples"
  | .ControlSettings => "ControlSettings"
  | .HeapDumpSegment => "HeapDumpSegment"
  | .HeapDumpEnd => "HeapDumpEnd"

/-- The file header (`struct Header`). -/
structure Header where
  format : String
  identifier_size : Nat
  high_word_ms : Nat
  low_word_ms : Nat
  deriving DecidableEq, Repr

/-- `parse_header`: 19 bytes of format text, then three big-endian u32s. -/
def parse_header (l : List Nat) : Except ParseError (Header × List Nat) :=
  match readExact 19 l with
  | .error e => .error e
  | .ok (format_buf, l1) =>
    let format := from_utf8_lossy format_buf
    match readExact 4 l1 with
    | .error e => .error e
    | .ok (b1, l2) =>
      let identifier_size := u32_from_be b1
      match readExact 4 l2 with
      | .error e => .error e
      | .ok (b2, l3) =>
        let high_word_ms := u32_from_be b2
        match readExact 4 l3 with
        | .error e => .error e
        | .ok (b3, l4) =>
          let low_word_ms := u32_from_be b3
          .ok ({ format, identifier_size, high_word_ms, low_word_ms }, l4)

/-- The record envelope (`struct Record`). -/
structure Record where
  tag : RecordTag
  time : Nat
  bytes : Nat
  deriving DecidableEq, Repr

/-- `struct Utf8StringRecord`. -/
structure Utf8StringRecord where
  identifier : Nat
  value : String
  deriving DecidableEq, Repr

/-- `parse_utf8_string_record`: 8-byte id, then `bytes - 8` bytes of text,
lossily decoded as UTF-8. -/
def parse_utf8_string_record (l : List Nat) (bytes : Nat) :
    Except ParseError (Utf8StringRecord × List Nat) :=
  match readExact 8 l with
  | .error e => .error e
  | .ok (u64_buf, l1) =>
    let identifier := u64_from_be u64_buf
    match readExact (bytes - 8) l1 with
    | .error e => .error e
    | .ok (value_buf, l2) =>
      .ok ({ identifier, value := from_utf8_lossy value_buf }, l2)

/-- `struct LoadClassRecord`. -/
structure LoadClassRecord where
  serial_num : Nat
  object_id : Nat
  strace_num : Nat
  strname_id : Nat
  deriving DecidableEq, Repr

/-- `parse_load_class_record`: u32, u64, u32, u64, big-endian. -/
def parse_load_class_record (l : List Nat) :
    Except ParseError (LoadClassRecord × List Nat) :=
  match readExact 4 l with
  | .error e => .error e
  | .ok (b1, l1) =>
    let serial_num := u32_from_be b1
    match readExact 8 l1 with
    | .error e => .error e
    | .ok (b2, l2) =>
      let object_id := u64_from_be b2
      match readExact 4 l2 with
      | .error e => .error e
      | .ok (b3, l3) =>
        let strace_num := u32_from_be b3
        match readExact 8 l3 with
        | .error e => .error e
        | .ok (b4, l4) =>
          let strname_id := u64_from_be b4
          .ok ({ serial_num, object_id, strace_num, strname_id }, l4)

/-- `struct UnloadClassRecord`. -/
structure UnloadClassRecord where
  serial_num : Nat
  deriving DecidableEq, Repr

/-- `parse_unload_class_record`: one big-endian u32. -/
def parse_unload_class_record (l : List Nat) :
    Except ParseError (UnloadClassRecord × List Nat) :=
  match readExact 4 l with
  | .error e => .error e
  | .ok (b1, l1) => .ok ({ serial_num := u32_from_be b1 }, l1)

/-- `struct StackFrameRecord`. -/
structure StackFrameRecord where
  frame_id : Nat
  method_name_id : Nat
  method_sign_id : Nat
  source_name_id : Nat
  class_serial_num : Nat
  line_num : Int
  deriving DecidableEq, Repr

/-- `parse_stack_frame_record`: four u64 ids, a u32 serial, an i32 line. -/
def parse_stack_frame_record (l : List Nat) :
    Except ParseError (StackFrameRecord × List Nat) :=
  match readExact 8 l with
  | .error e => .error e
  | .ok (b1, l1) =>
    let frame_id := u64_from_be b1
    match readExact 8 l1 with
    | .error e => .error e
    | .ok (b2, l2) =>
      let method_name_id := u64_from_be b2
      match readExact 8 l2 with
      | .error e => .error e
      | .ok (b3, l3) =>
        let method_sign_id := u64_from_be b3
        match readExact 8 l3 with
        | .error e => .error e
        | .ok (b4, l4) =>
          let source_name_id := u64_from_be b4
          match readExact 4 l4 with
          | .error e => .error e
          | .ok (b5, l5) =>
            let class_serial_num := u32_from_be b5
            match readExact 4 l5 with
            | .error e => .error e
            | .ok (b6, l6) =>
              let line_num := i32_from_be b6
              .ok ({ frame_id, method_name_id, method_sign_id,
                     source_name_id, class_serial_num, line_num }, l6)

/-- `struct StackTraceRecord`. -/
structure StackTraceRecord where
  serial_num : Nat
  thread_serial_num : Nat
  nframes : Nat
  frame_ids : List Nat
  deriving DecidableEq, Repr

/-- The `for n in 0..nframes` loop of `parse_stack_trace_record`: read
`n` big-endian u64 frame ids. -/
def read_frame_ids : Nat → List Nat → Except ParseError (List Nat × List Nat)
  | 0, l => .ok ([], l)
  | n + 1, l =>
    match readExact 8 l with
    | .error e => .error e
    | .ok (buf, l1) =>
      match read_frame_ids n l1 with
      | .error e => .error e
      | .ok (ids, l2) => .ok (u64_from_be buf :: ids, l2)

/-- `parse_stack_trace_record`: three u32s, then `nframes` u64 ids. -/
def parse_stack_trace_record (l : List Nat) :
    Except ParseError (StackTraceRecord × List Nat) :=
  match readExact 4 l with
  | .error e => .error e
  | .ok (b1, l1) =>
    let serial_num := u32_from_be b1
    match readExact 4 l1 with
    | .error e => .error e
    | .ok (b2, l2) =>
      let thread_serial_num := u32_from_be b2
      match readExact 4 l2 with
      | .error e => .error e
      | .ok (b3, l3) =>
        let nframes := u32_from_be b3
        match read_frame_ids nframes l3 with
        | .error e => .error e
        | .ok (frame_ids, l4) =>
          .ok ({ serial_num, thread_serial_num, nframes, frame_ids }, l4)

/-- Association-list model of `HashMap::get`: the most recent binding of a
key wins (bindings are prepended by `tableInsert`). -/
def tableGet {α : Type} : List (Nat × α) → Nat → Option α
  | [], _ => none
  | (k, v) :: t, key => if k = key then some v else tableGet t key

/-- Association-list model of `HashMap::insert`: prepending a binding,
which together with first-match lookup gives last-writer-wins overwrite
semantics and never removes a key. -/
def tableInsert {α : Type} (key : Nat) (v : α) (t : List (Nat × α)) :
    List (Nat × α) :=
  (key, v) :: t

/-- The three symbol tables owned by `parse_hprof_file`. -/
structure Tables where
  string_table : List (Nat × String)
  frame_table : List (Nat × StackFrameRecord)
  class_table : List (Nat × LoadClassRecord)
  deriving DecidableEq, Repr

/-- The empty tables (`HashMap::new()` three times). -/
def Tables.empty : Tables := ⟨[], [], []⟩

/-- `str::replace("/", ".")` for the class-path translation: `/` is a
single character, so the replacement is a per-character map. -/
def replaceSlashDot (s : String) : String :=
  String.mk (s.data.map fun c => if c = '/' then '.' else c)

/-- The derived `Debug` rendering of a `StackFrameRecord`, as printed by
`println!("{:?}", frame)`. -/
def frameDebug (f : StackFrameRecord) : String :=
  let a := f.frame_id
  let b := f.method_name_id
  let c := f.method_sign_id
  let d := f.source_name_id
  let e := f.class_serial_num
  let g := f.line_num
  "StackFrameRecord \x7b frame_id: " ++ toString a ++
    ", method_name_id: " ++ toString b ++
    ", method_sign_id: " ++ toString c ++
    ", source_name_id: " ++ toString d ++
    ", class_serial_num: " ++ toString e ++
    ", line_num: " ++ toString g ++ " \x7d"

/-- The body of the per-frame loop in the `RecordTag::StackTrace` arm of
`parse_record`: resolve one frame id against the three tables and render
its output line(s).  Every failed `get(..).unwrap()` is a
`DanglingReference`. -/
def resolve_frame (tabs : Tables) (frame_id : Nat) :
    Except ParseError (List String) :=
  match tableGet tabs.frame_table frame_id with
  | none => .error .danglingReference
  | some frame =>
    match tableGet tabs.class_table frame.class_serial_num with
    | none => .error .danglingReference
    | some cls =>
      match tableGet tabs.string_table cls.strname_id with
      | none => .error .danglingReference
      | some raw_name =>
        let cn := replaceSlashDot raw_name
        match tableGet tabs.string_table frame.method_name_id with
        | none => .error .danglingReference
        | some mn =>
          if frame.source_name_id ≠ 0 then
            match tableGet tabs.string_table frame.source_name_id with
            | none => .error .danglingReference
            | some sn =>
              let ln := frame.line_num
              .ok [s!"\t{cn}.{mn}() [{sn}:{ln}]"]
          else if frame.line_num = -1 then
            .ok [s!"\t{cn}.{mn}() [Unknown]"]
          else if frame.line_num = -2 then
            .ok [s!"\t{cn}.{mn}() [Compiled]", frameDebug frame]
          else if frame.line_num = -3 then
            .ok [s!"\t{cn}.{mn}() [Native]", frameDebug frame]
          else
            .ok [frameDebug frame]

/-- The `for frame_id in r.frame_ids` loop: lines printed before the first
failing lookup (if any) are kept, matching the incremental `println!`
output of the Rust loop. -/
def resolve_frames (tabs : Tables) : List Nat → List String × Option ParseError
  | [] => ([], none)
  | fid :: rest =>
    match resolve_frame tabs fid with
    | .error e => ([], some e)
    | .ok lines =>
      let p := resolve_frames tabs rest
      (lines ++ p.1, p.2)

/-- `parse_record`: read the 9-byte envelope (tag, time, payload length),
dispatch on the tag, update the tables, and return the printed lines
together with the envelope and the remaining stream (or the error that
aborted the record). -/
def parse_record (l : List Nat) (tabs : Tables) :
    List String × Except ParseError (Record × Tables × List Nat) :=
  match readExact 1 l with
  | .error e => ([], .error e)
  | .ok (tag_buf, l1) =>
    match RecordTag.tryFrom (tag_buf.headD 0) with
    | none => ([], .error (.unknownTag (tag_buf.headD 0)))
    | some tag =>
      match readExact 4 l1 with
      | .error e => ([], .error e)
      | .ok (time_buf, l2) =>
        let time := u32_from_be time_buf
        match readExact 4 l2 with
        | .error e => ([], .error e)
        | .ok (bytes_buf, l3) =>
          let bytes := u32_from_be bytes_buf
          match tag with
          | .Utf8String =>
            match parse_utf8_string_record l3 bytes with
            | .error e => ([], .error e)
            | .ok (r, l4) =>
              ([], .ok ({ tag, time, bytes },
                { tabs with
                  string_table := tableInsert r.identifier r.value tabs.string_table },
                l4))
          | .LoadClass =>
            match parse_load_class_record l3 with
            | .error e => ([], .error e)
            | .ok (r, l4) =>
              ([], .ok ({ tag, time, bytes },
                { tabs with
                  class_table := tableInsert r.serial_num r tabs.class_table },
                l4))
          | .UnloadClass =>
            match parse_unload_class_record l3 with
            | .error e => ([], .error e)
            | .ok (_r, l4) => ([], .ok ({ tag, time, bytes }, tabs, l4))
          | .StackFrame =>
            match parse_stack_frame_record l3 with
            | .error e => ([], .error e)
            | .ok (r, l4) =>
              ([], .ok ({ tag, time, bytes },
                { tabs with
                  frame_table := tableInsert r.frame_id r tabs.frame_table },
                l4))
          | .StackTrace =>
            match parse_stack_trace_record l3 with
            | .error e => ([], .error e)
            | .ok (r, l4) =>
              let n := r.thread_serial_num
              let p := resolve_frames tabs r.frame_ids
              match p.2 with
              | some e => (s!"Thread {n}:" :: p.1, .error e)
              | none =>
                (s!"Thread {n}:" :: p.1 ++ [""],
                  .ok ({ tag, time, bytes }, tabs, l4))
          | other =>
            let t := other.debugStr
            let b := bytes
            ([s!"tag: {t} of size {b} bytes"],
              .ok ({ tag := other, time, bytes }, tabs, l3))

/-- The per-tag record counters of `parse_hprof_file` (the locals
`i`, `j`, `k`, `l`, `m`). -/
structure Counts where
  i : Nat
  j : Nat
  k : Nat
  l : Nat
  m : Nat
  deriving DecidableEq, Repr

/-- The decode loop of `parse_hprof_file`: decode records, count the five
known kinds, stop (keeping the counts) at the first record of any other
tag, abort on any error.  The recursion is bounded by fuel: every
successful `parse_record` consumes at least the 9-byte envelope, so
`stream length + 1` steps always suffice; running out of fuel is modelled
as the truncation failure an ever-consuming loop would hit. -/
def parse_loop : Nat → List Nat → Tables → Counts →
    List String × Except ParseError Counts
  | 0, _, _, _ => ([], .error .truncatedInput)
  | fuel + 1, l, tabs, c =>
    match parse_record l tabs with
    | (out, .error e) => (out, .error e)
    | (out, .ok (record, tabs2, rest)) =>
      match record.tag with
      | .Utf8String =>
        let p := parse_loop fuel rest tabs2 { c with i := c.i + 1 }
        (out ++ p.1, p.2)
      | .LoadClass =>
        let p := parse_loop fuel rest tabs2 { c with j := c.j + 1 }
        (out ++ p.1, p.2)
      | .UnloadClass =>
        let p := parse_loop fuel rest tabs2 { c with k := c.k + 1 }
        (out ++ p.1, p.2)
      | .StackFrame =>
        let p := parse_loop fuel rest tabs2 { c with l := c.l + 1 }
        (out ++ p.1, p.2)
      | .StackTrace =>
        let p := parse_loop fuel rest tabs2 { c with m := c.m + 1 }
        (out ++ p.1, p.2)
      | _ => (out, .ok c)

/-- The summary line printed after the loop ends. -/
def summaryLine (c : Counts) : String :=
  let i := c.i
  let j := c.j
  let k := c.k
  let lf := c.l
  let m := c.m
  s!"entries: {i} string {j} load {k} unload {lf} frame {m} trace"

/-- `parse_hprof_file`, on an already-read byte stream: parse the header
(its value is never used again), run the decode loop on fresh tables and
zero counts, and print the summary on normal termination.  The result is
the list of lines printed to standard output plus the error that aborted
the process, if any (lines printed before the abort are kept). -/
def parse_hprof_file (l : List Nat) : List String × Option ParseError :=
  match parse_header l with
  | .error e => ([], some e)
  | .ok (_header, rest) =>
    match parse_loop (rest.length + 1) rest Tables.empty ⟨0, 0, 0, 0, 0⟩ with
    | (out, .error e) => (out, some e)
    | (out, .ok c) => (out ++ [summaryLine c], none)

/-- The five record kinds counted by the loop of `parse_hprof_file`
(every other tag falls into the `_ => break` arm). -/
def countedTag : RecordTag → Bool
  | .Utf8String | .LoadClass | .UnloadClass | .StackFrame | .StackTrace => true
  | _ => false

/-- The tag byte values of the closed `RecordTag` enumeration. -/
def knownTagBytes : List Nat :=
  [0x01, 0x02, 0x03, 0x04, 0x05, 0x06, 0x07, 0x0A, 0x0B, 0x0C, 0x0D, 0x0E,
   0x1C, 0x2C]

/-- All table lookups performed by `resolve_frame` for one frame id
succeed: the frame is in the frame table, its class in the class table,
the class name and method name in the string table, and the source name
too when `source_name_id != 0`. -/
def frameRefsOk (tabs : Tables) (fid : Nat) : Bool :=
  match tableGet tabs.frame_table fid with
  | none => false
  | some frame =>
    match tableGet tabs.class_table frame.class_serial_num with
    | none => false
    | some cls =>
      (tableGet tabs.string_table cls.strname_id).isSome &&
      (tableGet tabs.string_table frame.method_name_id).isSome &&
      (frame.source_name_id == 0 ||
        (tableGet tabs.string_table frame.source_name_id).isSome)

/-- Every reference of a stack-trace record resolves in the tables. -/
def traceRefsOk (tabs : Tables) (ids : List Nat) : Bool :=
  ids.all (frameRefsOk tabs)

/-- Big-endian 4-byte encoding of a value, for building test streams. -/
def be32 (n : Nat) : List Nat :=
  [n / 0x1000000 % 0x100, n / 0x10000 % 0x100, n / 0x100 % 0x100, n % 0x100]

/-- Big-endian 8-byte encoding of a value, for building test streams. -/
def be64 (n : Nat) : List Nat :=
  [n / 0x100000000000000 % 0x100, n / 0x1000000000000 % 0x100,
   n / 0x10000000000 % 0x100, n / 0x100000000 % 0x100, n / 0x1000000 % 0x100,
   n / 0x10000 % 0x100, n / 0x100 % 0x100, n % 0x100]

/-- Scenario A header: `"JAVA PROFILE 1.0.1\0"`, id size 8, timestamp 0. -/
def hdrA : List Nat :=
  [74, 65, 86, 65, 32, 80, 82, 79, 70, 73, 76, 69, 32, 49, 46, 48, 46, 49, 0] ++
    (be32 8 ++ (be32 0 ++ be32 0))

/-- Scenario A Utf8String record: id 1, text `"Main"`. -/
def recStringA : List Nat :=
  [0x01] ++ (be32 0 ++ (be32 12 ++ (be64 1 ++ [77, 97, 105, 110])))

/-- Scenario A LoadClass record: serial 1, strname_id 1. -/
def recLoadA : List Nat :=
  [0x02] ++ (be32 0 ++ (be32 24 ++
    (be32 1 ++ (be64 0 ++ (be32 0 ++ be64 1)))))

/-- Scenario A StackFrame record: frame 1, method name 1, source name 0,
class serial 1, line number `-1`. -/
def recFrameA : List Nat :=
  [0x04] ++ (be32 0 ++ (be32 32 ++
    (be64 1 ++ (be64 1 ++ (be64 0 ++ (be64 0 ++
      (be32 1 ++ [0xFF, 0xFF, 0xFF, 0xFF])))))))

/-- Scenario A StackTrace record: serial 1, thread 1, frames `[1]`. -/
def recTraceA : List Nat :=
  [0x05] ++ (be32 0 ++ (be32 20 ++
    (be32 1 ++ (be32 1 ++ (be32 1 ++ be64 1)))))

/-- An empty HeapDump envelope (tag `0x0C`, payload length 0). -/
def recDumpA : List Nat := [0x0C] ++ (be32 0 ++ be32 0)

/-- Scenario A stream, completed by one uncounted tag. -/
def scenarioA_tag : List Nat :=
  hdrA ++ recStringA ++ recLoadA ++ recFrameA ++ recTraceA ++ recDumpA

/-- Scenario A stream, ending right after the counted records. -/
def scenarioA_eof : List Nat :=
  hdrA ++ recStringA ++ recLoadA ++ recFrameA ++ recTraceA

/-- Scenario B stream: header, then one HeapDump envelope with a non-empty
(5-byte) payload. -/
def scenarioB : List Nat :=
  hdrA ++ ([0x0C] ++ (be32 0 ++ (be32 5 ++ [1, 2, 3, 4, 5])))

theorem readExact_ok {n : Nat} {l buf rest : List Nat}
    (h : readExact n l = .ok (buf, rest)) :
    buf = l.take n ∧ rest = l.drop n ∧ n ≤ l.length := by
  unfold readExact at h
  split at h <;> simp_all

theorem readExact_append {n : Nat} {l1 l2 : List Nat} (h : l1.length = n) :
    readExact n (l1 ++ l2) = .ok (l1, l2) := by
  subst h
  simp [readExact, List.take_left, List.drop_left]

theorem readExact_cons (b : Nat) (l : List Nat) :
    readExact 1 (b :: l) = .ok ([b], l) := by
  simp [readExact]

theorem readExact_err {n : Nat} {l : List Nat} {e : ParseError}
    (h : readExact n l = .error e) : e = .truncatedInput := by
  unfold readExact at h
  split at h <;> simp_all

theorem readExact_short {n : Nat} {l : List Nat} (h : l.length < n) :
    readExact n l = .error .truncatedInput := by
  unfold readExact
  rw [if_neg (by omega)]

theorem tableGet_insert_self {α : Type} (t : List (Nat × α)) (key : Nat)
    (v : α) : tableGet (tableInsert key v t) key = some v := by
  simp [tableGet, tableInsert]

theorem tableGet_insert_isSome_mono {α : Type} {t : List (Nat × α)}
    {key : Nat} (k : Nat) (v : α)
    (h : (tableGet t key).isSome) :
    (tableGet (tableInsert k v t) key).isSome := by
  simp only [tableInsert, tableGet]
  split <;> simp_all

theorem parse_utf8_string_record_err {l : List Nat} {b : Nat} {e : ParseError}
    (h : parse_utf8_string_record l b = .error e) : e = .truncatedInput := by
  unfold parse_utf8_string_record at h
  rcases h1 : readExact 8 l with e1 | ⟨buf, l1⟩
  · rw [h1] at h; cases h; exact readExact_err h1
  · rw [h1] at h; dsimp only at h
    rcases h2 : readExact (b - 8) l1 with e2 | ⟨buf2, l2⟩
    · rw [h2] at h; cases h; exact readExact_err h2
    · rw [h2] at h; cases h

theorem parse_load_class_record_err {l : List Nat} {e : ParseError}
    (h : parse_load_class_record l = .error e) : e = .truncatedInput := by
  unfold parse_load_class_record at h
  rcases h1 : readExact 4 l with e1 | ⟨b1, l1⟩
  · rw [h1] at h; cases h; exact readExact_err h1
  · rw [h1] at h; dsimp only at h
    rcases h2 : readExact 8 l1 with e2 | ⟨b2, l2⟩
    · rw [h2] at h; cases h; exact readExact_err h2
    · rw [h2] at h; dsimp only at h
      rcases h3 : readExact 4 l2 with e3 | ⟨b3, l3⟩
      · rw [h3] at h; cases h; exact readExact_err h3
      · rw [h3] at h; dsimp only at h
        rcases h4 : readExact 8 l3 with e4 | ⟨b4, l4⟩
        · rw [h4] at h; cases h; exact readExact_err h4
        · rw [h4] at h; cases h

theorem parse_unload_class_record_err {l : List Nat} {e : ParseError}
    (h : parse_unload_class_record l = .error e) : e = .truncatedInput := by
  unfold parse_unload_class_record at h
  rcases h1 : readExact 4 l with e1 | ⟨b1, l1⟩
  · rw [h1] at h; cases h; exact readExact_err h1
  · rw [h1] at h; cases h

theorem parse_stack_frame_record_err {l : List Nat} {e : ParseError}
    (h : parse_stack_frame_record l = .error e) : e = .truncatedInput := by
  unfold parse_stack_frame_record at h
  rcases h1 : readExact 8 l with e1 | ⟨b1, l1⟩
  · rw [h1] at h; cases h; exact readExact_err h1
  · rw [h1] at h; dsimp only at h
    rcases h2 : readExact 8 l1 with e2 | ⟨b2, l2⟩
    · rw [h2] at h; cases h; exact readExact_err h2
    · rw [h2] at h; dsimp only at h
      rcases h3 : readExact 8 l2 with e3 | ⟨b3, l3⟩
      · rw [h3] at h; cases h; exact readExact_err h3
      · rw [h3] at h; dsimp only at h
        rcases h4 : readExact 8 l3 with e4 | ⟨b4, l4⟩
        · rw [h4] at h; cases h; exact readExact_err h4
        · rw [h4] at h; dsimp only at h
          rcases h5 : readExact 4 l4 with e5 | ⟨b5, l5⟩
          · rw [h5] at h; cases h; exact readExact_err h5
          · rw [h5] at h; dsimp only at h
            rcases h6 : readExact 4 l5 with e6 | ⟨b6, l6⟩
            · rw [h6] at h; cases h; exact readExact_err h6
            · rw [h6] at h; cases h

theorem read_frame_ids_err :
    ∀ {n : Nat} {l : List Nat} {e : ParseError},
      read_frame_ids n l = .error e → e = .truncatedInput := by
  intro n
  induction n with
  | zero => intro l e h; simp [read_frame_ids] at h
  | succ n ih =>
    intro l e h
    unfold read_frame_ids at h
    rcases h1 : readExact 8 l with e1 | ⟨b1, l1⟩
    · rw [h1] at h; cases h; exact readExact_err h1
    · rw [h1] at h; dsimp only at h
      rcases h2 : read_frame_ids n l1 with e2 | ⟨ids, l2⟩
      · rw [h2] at h; cases h; exact ih h2
      · rw [h2] at h; cases h

theorem parse_stack_trace_record_err {l : List Nat} {e : ParseError}
    (h : parse_stack_trace_record l = .error e) : e = .truncatedInput := by
  unfold parse_stack_trace_record at h
  rcases h1 : readExact 4 l with e1 | ⟨b1, l1⟩
  · rw [h1] at h; cases h; exact readExact_err h1
  · rw [h1] at h; dsimp only at h
    rcases h2 : readExact 4 l1 with e2 | ⟨b2, l2⟩
    · rw [h2] at h; cases h; exact readExact_err h2
    · rw [h2] at h; dsimp only at h
      rcases h3 : readExact 4 l2 with e3 | ⟨b3, l3⟩
      · rw [h3] at h; cases h; exact readExact_err h3
      · rw [h3] at h; dsimp only at h
        rcases h4 : read_frame_ids (u32_from_be b3) l3 with e4 | ⟨ids, l4⟩
        · rw [h4] at h; cases h; exact read_frame_ids_err h4
        · rw [h4] at h; cases h

theorem resolve_frame_err {tabs : Tables} {fid : Nat}
    (h : frameRefsOk tabs fid = false) :
    resolve_frame tabs fid = .error .danglingReference := by
  unfold frameRefsOk at h
  unfold resolve_frame
  rcases h1 : tableGet tabs.frame_table fid with _ | frame
  · rfl
  · rw [h1] at h; dsimp only at h ⊢
    rcases h2 : tableGet tabs.class_table frame.class_serial_num with _ | cls
    · rfl
    · rw [h2] at h; dsimp only at h ⊢
      rcases h3 : tableGet tabs.string_table cls.strname_id with _ | raw
      · rfl
      · rw [h3] at h; dsimp only at h ⊢
        rcases h4 : tableGet tabs.string_table frame.method_name_id with _ | mn
        · rfl
        · rw [h4] at h; dsimp only at h ⊢
          simp at h
          obtain ⟨hne, hnone⟩ := h
          rw [if_pos hne, hnone]

theorem resolve_frame_ok {tabs : Tables} {fid : Nat}
    (h : frameRefsOk tabs fid = true) :
    ∃ lines, resolve_frame tabs fid = .ok lines ∧ 1 ≤ lines.length := by
  unfold frameRefsOk at h
  unfold resolve_frame
  rcases h1 : tableGet tabs.frame_table fid with _ | frame
  · rw [h1] at h; cases h
  · rw [h1] at h; dsimp only at h ⊢
    rcases h2 : tableGet tabs.class_table frame.class_serial_num with _ | cls
    · rw [h2] at h; cases h
    · rw [h2] at h; dsimp only at h ⊢
      rcases h3 : tableGet tabs.string_table cls.strname_id with _ | raw
      · rw [h3] at h; simp at h
      · rw [h3] at h; dsimp only at h ⊢
        rcases h4 : tableGet tabs.string_table frame.method_name_id with _ | mn
        · rw [h4] at h; simp at h
        · rw [h4] at h; dsimp only at h ⊢
          by_cases hs : frame.source_name_id = 0
          · rw [if_neg (by simp [hs])]
            split_ifs <;> exact ⟨_, rfl, by simp⟩
          · simp [hs] at h
            rw [if_pos hs]
            rcases h5 : tableGet tabs.string_table frame.source_name_id with _ | sn
            · rw [h5] at h; simp at h
            · exact ⟨_, rfl, by simp⟩



theorem resolve_frame_err_shape {tabs : Tables} {fid : Nat} {e : ParseError}
    (h : resolve_frame tabs fid = .error e) : e = .danglingReference := by
  cases hok : frameRefsOk tabs fid with
  | true =>
    obtain ⟨lines, heq, -⟩ := resolve_frame_ok hok
    rw [heq] at h
    cases h
  | false =>
    rw [resolve_frame_err hok] at h
    cases h
    rfl

theorem resolve_frames_err_shape {tabs : Tables} :
    ∀ {ids : List Nat} {e : ParseError},
      (resolve_frames tabs ids).2 = some e → e = .danglingReference := by
  intro ids
  induction ids with
  | nil => intro e h; simp [resolve_frames] at h
  | cons fid rest ih =>
    intro e h
    unfold resolve_frames at h
    rcases hf : resolve_frame tabs fid with e1 | lines
    · rw [hf] at h; dsimp only at h; cases h; exact resolve_frame_err_shape hf
    · rw [hf] at h; dsimp only at h; exact ih h

theorem resolve_frames_spec (tabs : Tables) (ids : List Nat) :
    (resolve_frames tabs ids).2 =
      (if traceRefsOk tabs ids then none else some ParseError.danglingReference) ∧
    (traceRefsOk tabs ids = true →
      ids.length ≤ (resolve_frames tabs ids).1.length) := by
  induction ids with
  | nil => simp [resolve_frames, traceRefsOk]
  | cons fid rest ih =>
    obtain ⟨ih1, ih2⟩ := ih
    cases hok : frameRefsOk tabs fid with
    | false =>
      have he := resolve_frame_err hok
      unfold resolve_frames
      rw [he]
      simp [traceRefsOk, hok]
    | true =>
      obtain ⟨lines, hres, hlen⟩ := resolve_frame_ok hok
      unfold resolve_frames
      rw [hres]
      dsimp only
      constructor
      · rw [ih1]
        simp [traceRefsOk, hok]
      · intro hall
        have hrest : traceRefsOk tabs rest = true := by
          simp [traceRefsOk, hok] at hall
          simpa [traceRefsOk] using hall
        have := ih2 hrest
        simp only [List.length_append, List.length_cons]
        omega

theorem parse_record_ok_tables {l : List Nat} {tabs : Tables}
    {out : List String} {record : Record} {tabs2 : Tables} {rest : List Nat}
    (h : parse_record l tabs = (out, .ok (record, tabs2, rest))) :
    (∃ key v, tabs2 = { tabs with string_table := tableInsert key v tabs.string_table }) ∨
    (∃ key v, tabs2 = { tabs with frame_table := tableInsert key v tabs.frame_table }) ∨
    (∃ key v, tabs2 = { tabs with class_table := tableInsert key v tabs.class_table }) ∨
    tabs2 = tabs := by
  unfold parse_record at h
  rcases hr1 : readExact 1 l with e1 | ⟨tb, l1⟩
  · rw [hr1] at h; simp at h
  · rw [hr1] at h; dsimp only at h
    rcases ht : RecordTag.tryFrom (tb.headD 0) with _ | tag
    · rw [ht] at h; simp at h
    · rw [ht] at h; dsimp only at h
      rcases hr2 : readExact 4 l1 with e2 | ⟨b2, l2⟩
      · rw [hr2] at h; simp at h
      · rw [hr2] at h; dsimp only at h
        rcases hr3 : readExact 4 l2 with e3 | ⟨b3, l3⟩
        · rw [hr3] at h; simp at h
        · rw [hr3] at h; dsimp only at h
          cases tag
          case Utf8String =>
            rcases hb : parse_utf8_string_record l3 (u32_from_be b3) with e | ⟨r, l4⟩
            · rw [hb] at h; simp at h
            · rw [hb] at h
              simp only [Prod.mk.injEq, Except.ok.injEq] at h
              obtain ⟨-, -, htab, -⟩ := h
              exact Or.inl ⟨r.identifier, r.value, htab.symm⟩
          case LoadClass =>
            rcases hb : parse_load_class_record l3 with e | ⟨r, l4⟩
            · rw [hb] at h; simp at h
            · rw [hb] at h
              simp only [Prod.mk.injEq, Except.ok.injEq] at h
              obtain ⟨-, -, htab, -⟩ := h
              exact Or.inr (Or.inr (Or.inl ⟨r.serial_num, r, htab.symm⟩))
          case UnloadClass =>
            rcases hb : parse_unload_class_record l3 with e | ⟨r, l4⟩
            · rw [hb] at h; simp at h
            · rw [hb] at h
              simp only [Prod.mk.injEq, Except.ok.injEq] at h
              obtain ⟨-, -, htab, -⟩ := h
              exact Or.inr (Or.inr (Or.inr htab.symm))
          case StackFrame =>
            rcases hb : parse_stack_frame_record l3 with e | ⟨r, l4⟩
            · rw [hb] at h; simp at h
            · rw [hb] at h
              simp only [Prod.mk.injEq, Except.ok.injEq] at h
              obtain ⟨-, -, htab, -⟩ := h
              exact Or.inr (Or.inl ⟨r.frame_id, r, htab.symm⟩)
          case StackTrace =>
            rcases hb : parse_stack_trace_record l3 with e | ⟨r, l4⟩
            · rw [hb] at h; simp at h
            · rw [hb] at h; dsimp only at h
              rcases hp : (resolve_frames tabs r.frame_ids).2 with _ | e
              · rw [hp] at h
                simp only [Prod.mk.injEq, Except.ok.injEq] at h
                obtain ⟨-, -, htab, -⟩ := h
                exact Or.inr (Or.inr (Or.inr htab.symm))
              · rw [hp] at h; simp at h
          all_goals
            simp only [Prod.mk.injEq, Except.ok.injEq] at h
            obtain ⟨-, -, htab, -⟩ := h
            exact Or.inr (Or.inr (Or.inr htab.symm))



theorem parse_record_err_unknown {l : List Nat} {tabs : Tables}
    {out : List String} {c' : Nat}
    (h : parse_record l tabs = (out, .error (.unknownTag c'))) :
    RecordTag.tryFrom c' = none ∧ l.headD 0 = c' := by
  unfold parse_record at h
  rcases hr1 : readExact 1 l with e1 | ⟨tb, l1⟩
  · rw [hr1] at h
    simp only [Prod.mk.injEq, Except.error.injEq] at h
    obtain ⟨-, he⟩ := h
    rw [readExact_err hr1] at he
    cases he
  · rw [hr1] at h; dsimp only at h
    obtain ⟨htb, -, hlen⟩ := readExact_ok hr1
    have hhead : tb.headD 0 = l.headD 0 := by
      cases l with
      | nil => simp at hlen
      | cons a t => simp [htb]
    rcases ht : RecordTag.tryFrom (tb.headD 0) with _ | tag
    · rw [ht] at h
      simp only [Prod.mk.injEq, Except.error.injEq, ParseError.unknownTag.injEq] at h
      obtain ⟨-, he⟩ := h
      exact ⟨he ▸ ht, hhead ▸ he⟩
    · rw [ht] at h; dsimp only at h
      rcases hr2 : readExact 4 l1 with e2 | ⟨b2, l2⟩
      · rw [hr2] at h
        simp only [Prod.mk.injEq, Except.error.injEq] at h
        obtain ⟨-, he⟩ := h
        rw [readExact_err hr2] at he
        cases he
      · rw [hr2] at h; dsimp only at h
        rcases hr3 : readExact 4 l2 with e3 | ⟨b3, l3⟩
        · rw [hr3] at h
          simp only [Prod.mk.injEq, Except.error.injEq] at h
          obtain ⟨-, he⟩ := h
          rw [readExact_err hr3] at he
          cases he
        · rw [hr3] at h; dsimp only at h
          cases tag
          case Utf8String =>
            rcases hb : parse_utf8_string_record l3 (u32_from_be b3) with e | ⟨r, l4⟩
            · rw [hb] at h
              simp only [Prod.mk.injEq, Except.error.injEq] at h
              obtain ⟨-, he⟩ := h
              rw [parse_utf8_string_record_err hb] at he
              cases he
            · rw [hb] at h; simp at h
          case LoadClass =>
            rcases hb : parse_load_class_record l3 with e | ⟨r, l4⟩
            · rw [hb] at h
              simp only [Prod.mk.injEq, Except.error.injEq] at h
              obtain ⟨-, he⟩ := h
              rw [parse_load_class_record_err hb] at he
              cases he
            · rw [hb] at h; simp at h
          case UnloadClass =>
            rcases hb : parse_unload_class_record l3 with e | ⟨r, l4⟩
            · rw [hb] at h
              simp only [Prod.mk.injEq, Except.error.injEq] at h
              obtain ⟨-, he⟩ := h
              rw [parse_unload_class_record_err hb] at he
              cases he
            · rw [hb] at h; simp at h
          case StackFrame =>
            rcases hb : parse_stack_frame_record l3 with e | ⟨r, l4⟩
            · rw [hb] at h
              simp only [Prod.mk.injEq, Except.error.injEq] at h
              obtain ⟨-, he⟩ := h
              rw [parse_stack_frame_record_err hb] at he
              cases he
            · rw [hb] at h; simp at h
          case StackTrace =>
            rcases hb : parse_stack_trace_record l3 with e | ⟨r, l4⟩
            · rw [hb] at h
              simp only [Prod.mk.injEq, Except.error.injEq] at h
              obtain ⟨-, he⟩ := h
              rw [parse_stack_trace_record_err hb] at he
              cases he
            · rw [hb] at h; dsimp only at h
              rcases hp : (resolve_frames tabs r.frame_ids).2 with _ | e
              · rw [hp] at h; simp at h
              · rw [hp] at h
                simp only [Prod.mk.injEq, Except.error.injEq] at h
                obtain ⟨-, he⟩ := h
                rw [resolve_frames_err_shape hp] at he
                cases he
          all_goals simp at h

theorem readExact_of_le {n : Nat} {l : List Nat} (h : n ≤ l.length) :
    readExact n l = .ok (l.take n, l.drop n) := by
  simp [readExact, h]

theorem parse_record_uncounted {b : Nat} {tag : RecordTag} (r : List Nat)
    (tabs : Tables) (ht : RecordTag.tryFrom b = some tag)
    (hc : countedTag tag = false) (hlen : 8 ≤ r.length) :
    parse_record (b :: r) tabs =
      (let t := tag.debugStr
       let bb := u32_from_be ((r.drop 4).take 4)
       ([s!"tag: {t} of size {bb} bytes"],
        .ok ({ tag := tag, time := u32_from_be (r.take 4),
               bytes := u32_from_be ((r.drop 4).take 4) }, tabs, r.drop 8))) := by
  unfold parse_record
  rw [readExact_cons]
  dsimp only [List.headD]
  rw [ht]
  dsimp only
  rw [readExact_of_le (show 4 ≤ r.length by omega)]
  dsimp only
  rw [readExact_of_le (show 4 ≤ (r.drop 4).length by simp; omega)]
  dsimp only
  cases tag <;> simp_all [countedTag, List.drop_drop]

theorem parse_loop_uncounted {b : Nat} {tag : RecordTag} (r : List Nat)
    (tabs : Tables) (c : Counts) (fuel : Nat)
    (ht : RecordTag.tryFrom b = some tag)
    (hc : countedTag tag = false) (hlen : 8 ≤ r.length) :
    parse_loop (fuel + 1) (b :: r) tabs c =
      (let t := tag.debugStr
       let bb := u32_from_be ((r.drop 4).take 4)
       ([s!"tag: {t} of size {bb} bytes"], .ok c)) := by
  have hrec := parse_record_uncounted r tabs ht hc hlen
  unfold parse_loop
  rw [hrec]
  dsimp only
  cases tag <;> simp_all [countedTag]

/-- C1 (counterexample): for the minimal scenario-A stream, completed either
by one uncounted tag or by end of input after the counted records, the
program's output is not the claimed four lines with a normal exit: the
uncounted-tag completion interposes a generic tag line before the summary,
and the end-of-input completion aborts without a summary. -/
theorem c1_scenarioA_claimed_output_refuted :
    parse_hprof_file scenarioA_tag ≠
      (["Thread 1:", "\tMain.Main() [Unknown]", "",
        "entries: 1 string 1 load 0 unload 1 frame 1 trace"], none) ∧
    parse_hprof_file scenarioA_eof ≠
      (["Thread 1:", "\tMain.Main() [Unknown]", "",
        "entries: 1 string 1 load 0 unload 1 frame 1 trace"], none) := by
  constructor <;> decide

/-- C1 (amended): for the minimal scenario-A stream the thread block is
rendered exactly as claimed; when the stream is completed by one uncounted
tag (an empty HeapDump envelope) the output is that block, the generic
"tag: HeapDump of size 0 bytes" line and then the claimed summary line,
with a normal exit; when the stream instead ends after the counted
records, the program prints the block and then aborts with
`TruncatedInput`, so no summary line is printed. -/
theorem c1_scenarioA_actual_output :
    parse_hprof_file scenarioA_tag =
      (["Thread 1:", "\tMain.Main() [Unknown]", "",
        "tag: HeapDump of size 0 bytes",
        "entries: 1 string 1 load 0 unload 1 frame 1 trace"], none) ∧
    parse_hprof_file scenarioA_eof =
      (["Thread 1:", "\tMain.Main() [Unknown]", ""],
        some .truncatedInput) := by
  constructor <;> decide

/-- C2: for every input stream, the Stream Driver stops at the first record
whose tag is not one of the five counted kinds: such a record yields only
the generic "tag: ... of size N bytes" line, consumes the 9-byte envelope
and none of its payload, leaves the tables untouched and terminates the
loop with exactly the counts accumulated so far; in particular a stream
with only a header and a single HeapDump envelope with non-empty payload
yields the generic line and an all-zero summary. -/
theorem c2_driver_stops_at_uncounted_tag :
    (∀ (b : Nat) (tag : RecordTag) (r : List Nat) (tabs : Tables)
        (c : Counts) (fuel : Nat),
      RecordTag.tryFrom b = some tag → countedTag tag = false →
      8 ≤ r.length →
      parse_record (b :: r) tabs =
        (let t := tag.debugStr
         let bb := u32_from_be ((r.drop 4).take 4)
         ([s!"tag: {t} of size {bb} bytes"],
          .ok ({ tag := tag, time := u32_from_be (r.take 4),
                 bytes := u32_from_be ((r.drop 4).take 4) }, tabs, r.drop 8))) ∧
      parse_loop (fuel + 1) (b :: r) tabs c =
        (let t := tag.debugStr
         let bb := u32_from_be ((r.drop 4).take 4)
         ([s!"tag: {t} of size {bb} bytes"], .ok c))) ∧
    parse_hprof_file scenarioB =
      (["tag: HeapDump of size 5 bytes",
        "entries: 0 string 0 load 0 unload 0 frame 0 trace"], none) :=
  ⟨fun _b _tag r tabs c fuel ht hc hlen =>
    ⟨parse_record_uncounted r tabs ht hc hlen,
     parse_loop_uncounted r tabs c fuel ht hc hlen⟩,
   by decide⟩

/-- Witness for C2: the uncounted HeapDump tag (`0x0C`) with a declared
5-byte payload stops the loop after the envelope, keeping the running
counts 1,2,3,4,5. -/
theorem c2_driver_stops_at_uncounted_tag_witness :
    parse_record (0x0C :: (be32 0 ++ (be32 5 ++ [9, 9, 9]))) Tables.empty =
      (["tag: HeapDump of size 5 bytes"],
       .ok ({ tag := .HeapDump, time := 0, bytes := 5 }, Tables.empty,
         [9, 9, 9])) ∧
    parse_loop 1 (0x0C :: (be32 0 ++ (be32 5 ++ [9, 9, 9]))) Tables.empty
        ⟨1, 2, 3, 4, 5⟩ =
      (["tag: HeapDump of size 5 bytes"], .ok ⟨1, 2, 3, 4, 5⟩) := by
  obtain ⟨h1, h2⟩ := c2_driver_stops_at_uncounted_tag.1 0x0C .HeapDump
    (be32 0 ++ (be32 5 ++ [9, 9, 9])) Tables.empty ⟨1, 2, 3, 4, 5⟩ 0
    rfl rfl (by decide)
  constructor
  · rw [h1]; rfl
  · rw [h2]; rfl

theorem parse_header_err {l : List Nat} {e : ParseError}
    (h : parse_header l = .error e) : e = .truncatedInput := by
  unfold parse_header at h
  rcases h1 : readExact 19 l with e1 | ⟨f, l1⟩
  · rw [h1] at h; cases h; exact readExact_err h1
  · rw [h1] at h; dsimp only at h
    rcases h2 : readExact 4 l1 with e2 | ⟨b1, l2⟩
    · rw [h2] at h; cases h; exact readExact_err h2
    · rw [h2] at h; dsimp only at h
      rcases h3 : readExact 4 l2 with e3 | ⟨b2, l3⟩
      · rw [h3] at h; cases h; exact readExact_err h3
      · rw [h3] at h; dsimp only at h
        rcases h4 : readExact 4 l3 with e4 | ⟨b3, l4⟩
        · rw [h4] at h; cases h; exact readExact_err h4
        · rw [h4] at h; cases h

theorem parse_header_ok_inv {l : List Nat} {hd : Header} {rest : List Nat}
    (hp : parse_header l = .ok (hd, rest)) :
    rest = l.drop 31 ∧ 31 ≤ l.length := by
  unfold parse_header at hp
  rcases h1 : readExact 19 l with e1 | ⟨f, l1⟩
  · rw [h1] at hp; cases hp
  · rw [h1] at hp; dsimp only at hp
    obtain ⟨-, hl1, hn1⟩ := readExact_ok h1
    rcases h2 : readExact 4 l1 with e2 | ⟨b1, l2⟩
    · rw [h2] at hp; cases hp
    · rw [h2] at hp; dsimp only at hp
      obtain ⟨-, hl2, hn2⟩ := readExact_ok h2
      rcases h3 : readExact 4 l2 with e3 | ⟨b2, l3⟩
      · rw [h3] at hp; cases hp
      · rw [h3] at hp; dsimp only at hp
        obtain ⟨-, hl3, hn3⟩ := readExact_ok h3
        rcases h4 : readExact 4 l3 with e4 | ⟨b3, l4⟩
        · rw [h4] at hp; cases hp
        · rw [h4] at hp
          obtain ⟨-, hl4, hn4⟩ := readExact_ok h4
          simp only [Except.ok.injEq, Prod.mk.injEq] at hp
          obtain ⟨-, hrest⟩ := hp
          subst hl1 hl2 hl3 hl4
          simp only [List.length_drop] at hn2 hn3 hn4
          constructor
          · rw [← hrest]; simp [List.drop_drop]
          · omega

theorem parse_header_of_le {l : List Nat} (h : 31 ≤ l.length) :
    ∃ hd, parse_header l = .ok (hd, l.drop 31) := by
  unfold parse_header
  rw [readExact_of_le (show 19 ≤ l.length by omega)]
  dsimp only
  rw [readExact_of_le (show 4 ≤ (l.drop 19).length by simp; omega)]
  dsimp only
  rw [readExact_of_le (show 4 ≤ ((l.drop 19).drop 4).length by simp; omega)]
  dsimp only
  rw [readExact_of_le
    (show 4 ≤ (((l.drop 19).drop 4).drop 4).length by simp; omega)]
  dsimp only
  rw [show (((l.drop 19).drop 4).drop 4).drop 4 = l.drop 31 by
    simp [List.drop_drop]]
  exact ⟨_, rfl⟩

/-- C5: on every well-formed input the Header Decoder consumes exactly the
first 31 bytes (19 bytes of format text then three 4-byte big-endian
integers) and never more, and on every stream shorter than 31 bytes it
fails with `TruncatedInput` and the program decodes no record and prints
nothing. -/
theorem c5_header_consumes_exactly_31_bytes :
    (∀ (l : List Nat) (hd : Header) (rest : List Nat),
      parse_header l = .ok (hd, rest) → rest = l.drop 31 ∧ 31 ≤ l.length) ∧
    (∀ l : List Nat, l.length < 31 →
      parse_header l = .error .truncatedInput ∧
      parse_hprof_file l = ([], some .truncatedInput)) := by
  constructor
  · exact fun l hd rest hp => parse_header_ok_inv hp
  · intro l hshort
    have herr : parse_header l = .error .truncatedInput := by
      rcases hp : parse_header l with e | ⟨hd, rest⟩
      · exact congrArg Except.error (parse_header_err hp)
      · obtain ⟨-, hlen⟩ := parse_header_ok_inv hp
        omega
    refine ⟨herr, ?_⟩
    unfold parse_hprof_file
    rw [herr]

/-- Witness for C5: the 31-byte scenario-A header parses leaving nothing,
and a 3-byte stream is rejected with `TruncatedInput` producing no
output. -/
theorem c5_header_consumes_exactly_31_bytes_witness :
    (([] : List Nat) = hdrA.drop 31 ∧ 31 ≤ hdrA.length) ∧
    (parse_header [1, 2, 3] = .error .truncatedInput ∧
     parse_hprof_file [1, 2, 3] = ([], some .truncatedInput)) :=
  ⟨c5_header_consumes_exactly_31_bytes.1 hdrA
      ⟨"JAVA PROFILE 1.0.1\x00", 8, 0, 0⟩ [] (by rfl),
   c5_header_consumes_exactly_31_bytes.2 [1, 2, 3] (by decide)⟩

/-- C10: two streams of at least 31 bytes that agree outside the 12 bytes
following the 19-byte format string are treated identically from record
decoding onward: the parsed header value is never consulted again, so the
program's entire output coincides. -/
theorem c10_header_fields_never_consulted (l1 l2 : List Nat)
    (h1 : 31 ≤ l1.length) (h2 : 31 ≤ l2.length)
    (_htake : l1.take 19 = l2.take 19) (hdrop : l1.drop 31 = l2.drop 31) :
    parse_hprof_file l1 = parse_hprof_file l2 := by
  obtain ⟨hd1, e1⟩ := parse_header_of_le h1
  obtain ⟨hd2, e2⟩ := parse_header_of_le h2
  unfold parse_hprof_file
  rw [e1, e2]
  dsimp only
  rw [hdrop]

/-- Witness for C10: scenario A's header and the same header with a
different declared id size and timestamp drive the program identically. -/
theorem c10_header_fields_never_consulted_witness :
    parse_hprof_file (hdrA ++ recDumpA) =
      parse_hprof_file
        (hdrA.take 19 ++
          (be32 4 ++ (be32 0x01020304 ++ (be32 0x05060708 ++ recDumpA)))) :=
  c10_header_fields_never_consulted _ _ (by decide) (by decide) (by decide)
    (by decide)

/-- C9: an UnloadClass record (tag 0x03) consumes its 4-byte serial number
(the stream advances 4 bytes past the envelope) but the decoded record is
discarded: all three symbol tables are returned exactly unchanged and
nothing is printed, while the loop still increments the UnloadClass
running total. -/
theorem c9_unload_class_discarded (r : List Nat) (tabs : Tables)
    (c : Counts) (fuel : Nat) (hlen : 12 ≤ r.length) :
    parse_record (0x03 :: r) tabs =
      ([], .ok ({ tag := .UnloadClass, time := u32_from_be (r.take 4),
                  bytes := u32_from_be ((r.drop 4).take 4) }, tabs,
        r.drop 12)) ∧
    parse_loop (fuel + 1) (0x03 :: r) tabs c =
      parse_loop fuel (r.drop 12) tabs { c with k := c.k + 1 } := by
  have hrec : parse_record (0x03 :: r) tabs =
      ([], .ok ({ tag := .UnloadClass, time := u32_from_be (r.take 4),
                  bytes := u32_from_be ((r.drop 4).take 4) }, tabs,
        r.drop 12)) := by
    unfold parse_record
    rw [readExact_cons]
    dsimp only [List.headD]
    rw [show RecordTag.tryFrom 0x03 = some .UnloadClass from rfl]
    dsimp only
    rw [readExact_of_le (show 4 ≤ r.length by omega)]
    dsimp only
    rw [readExact_of_le (show 4 ≤ (r.drop 4).length by simp; omega)]
    dsimp only
    unfold parse_unload_class_record
    rw [List.drop_drop, readExact_of_le (show 4 ≤ (r.drop 8).length by
      simp; omega)]
    dsimp only
    rw [List.drop_drop]
  refine ⟨hrec, ?_⟩
  conv_lhs => rw [parse_loop]
  rw [hrec]
  dsimp only
  simp

/-- Witness for C9: a concrete UnloadClass record with serial 7 advances
past its serial, changes no table and bumps only the unload count. -/
theorem c9_unload_class_discarded_witness :
    parse_record (0x03 :: (be32 0 ++ (be32 4 ++ be32 7)))
        ⟨[(5, "x")], [], []⟩ =
      ([], .ok ({ tag := .UnloadClass, time := 0, bytes := 4 },
        ⟨[(5, "x")], [], []⟩, [])) ∧
    parse_loop 1 (0x03 :: (be32 0 ++ (be32 4 ++ be32 7)))
        ⟨[(5, "x")], [], []⟩ ⟨0, 0, 0, 0, 0⟩ =
      parse_loop 0 [] ⟨[(5, "x")], [], []⟩ ⟨0, 0, 1, 0, 0⟩ := by
  obtain ⟨h1, h2⟩ := c9_unload_class_discarded
    (be32 0 ++ (be32 4 ++ be32 7)) ⟨[(5, "x")], [], []⟩
    ⟨0, 0, 0, 0, 0⟩ 0 (by decide)
  exact ⟨by rw [h1]; rfl, by rw [h2]; rfl⟩

/-- C8: a successfully processed record never removes a key from any of
the three symbol tables (every key present before is present after), and
inserting under an existing key overwrites the previous value (last
writer wins). -/
theorem c8_tables_grow_monotonically :
    (∀ (l : List Nat) (tabs : Tables) (out : List String) (record : Record)
        (tabs2 : Tables) (rest : List Nat),
      parse_record l tabs = (out, .ok (record, tabs2, rest)) →
      (∀ key, (tableGet tabs.string_table key).isSome →
        (tableGet tabs2.string_table key).isSome) ∧
      (∀ key, (tableGet tabs.frame_table key).isSome →
        (tableGet tabs2.frame_table key).isSome) ∧
      (∀ key, (tableGet tabs.class_table key).isSome →
        (tableGet tabs2.class_table key).isSome)) ∧
    (∀ (t : List (Nat × String)) (key : Nat) (v : String),
      tableGet (tableInsert key v t) key = some v) := by
  constructor
  · intro l tabs out record tabs2 rest h
    rcases parse_record_ok_tables h with ⟨k, v, ht⟩ | ⟨k, v, ht⟩ | ⟨k, v, ht⟩ | ht <;>
      subst ht <;>
      refine ⟨fun key hk => ?_, fun key hk => ?_, fun key hk => ?_⟩ <;>
      first
        | exact hk
        | exact tableGet_insert_isSome_mono _ _ hk
  · exact fun t key v => tableGet_insert_self t key v

/-- Witness for C8: decoding the scenario-A string record on a table that
already holds key 5 keeps key 5 present, and re-inserting key 5
overwrites its value. -/
theorem c8_tables_grow_monotonically_witness :
    (tableGet (tableInsert 1 "Main" [(5, "x")]) 5).isSome = true ∧
    tableGet (tableInsert 5 "y" [(5, "x")]) 5 = some "y" := by
  have h := c8_tables_grow_monotonically
  have h1 := (h.1 recStringA ⟨[(5, "x")], [], []⟩ []
    ⟨.Utf8String, 0, 12⟩ ⟨tableInsert 1 "Main" [(5, "x")], [], []⟩ []
    (by rfl)).1 5 (by decide)
  exact ⟨h1, h.2 [(5, "x")] 5 "y"⟩

/-- C3: the Stack Trace Resolver's rendering rules are tried in fixed
order with the `source_name_id != 0` rule first: whenever all lookups
succeed and `source_name_id` is non-zero, the frame renders with the
resolved source file name and the raw `line_num`, whatever `line_num` is
(in particular `-1`), so the sentinel rules are never consulted. -/
theorem c3_source_name_takes_precedence :
    ∀ (tabs : Tables) (fid : Nat) (frame : StackFrameRecord)
      (cls : LoadClassRecord) (raw mn sn : String),
      tableGet tabs.frame_table fid = some frame →
      tableGet tabs.class_table frame.class_serial_num = some cls →
      tableGet tabs.string_table cls.strname_id = some raw →
      tableGet tabs.string_table frame.method_name_id = some mn →
      frame.source_name_id ≠ 0 →
      tableGet tabs.string_table frame.source_name_id = some sn →
      resolve_frame tabs fid =
        .ok [(let cn := replaceSlashDot raw
              let ln := frame.line_num
              s!"\t{cn}.{mn}() [{sn}:{ln}]")] := by
  intro tabs fid frame cls raw mn sn h1 h2 h3 h4 hs h5
  unfold resolve_frame
  rw [h1]; dsimp only
  rw [h2]; dsimp only
  rw [h3]; dsimp only
  rw [h4]; dsimp only
  rw [if_pos hs, h5]

/-- A frame with a non-zero source name id and the `-1` line sentinel. -/
def frameC3 : StackFrameRecord := ⟨1, 1, 0, 2, 1, -1⟩

/-- The class record referenced by `frameC3`. -/
def clsC3 : LoadClassRecord := ⟨1, 0, 0, 1⟩

/-- Tables under which `frameC3` fully resolves. -/
def tabsC3 : Tables :=
  ⟨[(1, "Main"), (2, "Main.java")], [(1, frameC3)], [(1, clsC3)]⟩

/-- Witness for C3: a frame with `source_name_id = 2` and `line_num = -1`
renders by rule 1 (source file and line), not as "[Unknown]". -/
theorem c3_source_name_takes_precedence_witness :
    resolve_frame tabsC3 1 = .ok ["\tMain.Main() [Main.java:-1]"] := by
  have h := c3_source_name_takes_precedence tabsC3 1 frameC3 clsC3
    "Main" "Main" "Main.java" rfl rfl rfl rfl (by decide) rfl
  rw [h]; rfl

/-- C4: resolving a stack-trace record fails with `DanglingReference`
exactly when some referenced id is absent from its table (a frame id, a
frame's class serial, a class name, a method name, or a non-zero source
name), and when every reference resolves no frame is dropped: at least
one line is rendered per frame. -/
theorem c4_dangling_reference_on_any_missing_id :
    ∀ (tabs : Tables) (ids : List Nat),
      ((resolve_frames tabs ids).2 =
        if traceRefsOk tabs ids then none
        else some ParseError.danglingReference) ∧
      (traceRefsOk tabs ids = true →
        ids.length ≤ (resolve_frames tabs ids).1.length) :=
  fun tabs ids => resolve_frames_spec tabs ids

/-- Witness for C4: a frame id absent from empty tables is a
`DanglingReference`, and a fully-resolvable one-frame trace renders at
least one line. -/
theorem c4_dangling_reference_on_any_missing_id_witness :
    (resolve_frames Tables.empty [1]).2 =
      some ParseError.danglingReference ∧
    1 ≤ (resolve_frames tabsC3 [1]).1.length := by
  constructor
  · have h := (c4_dangling_reference_on_any_missing_id Tables.empty [1]).1
    rwa [if_neg (by decide)] at h
  · have h := (c4_dangling_reference_on_any_missing_id tabsC3 [1]).2
      (by decide)
    simpa using h

/-- C7: a tag byte outside the closed enumeration is exactly a byte on
which `RecordTag::try_from` fails; such a byte makes the envelope decoder
abort the whole decode with a fatal `UnknownTag` error (the record is
never skipped, the loop stops with that error), while a tag byte inside
the enumeration can never produce an `UnknownTag` error. -/
theorem c7_unknown_tag_aborts :
    (∀ b : Nat, RecordTag.tryFrom b = none ↔ b ∉ knownTagBytes) ∧
    (∀ (b : Nat) (l : List Nat) (tabs : Tables) (c : Counts) (fuel : Nat),
      RecordTag.tryFrom b = none →
      parse_record (b :: l) tabs = ([], .error (.unknownTag b)) ∧
      parse_loop (fuel + 1) (b :: l) tabs c =
        ([], .error (.unknownTag b))) ∧
    (∀ (b : Nat) (l : List Nat) (tabs : Tables) (out : List String)
        (c' : Nat),
      b ∈ knownTagBytes →
      parse_record (b :: l) tabs ≠ (out, .error (.unknownTag c'))) := by
  refine ⟨?_, ?_, ?_⟩
  · intro b
    rw [RecordTag.tryFrom.eq_def]
    split <;> simp_all [knownTagBytes]
  · intro b l tabs c fuel hb
    have hrec : parse_record (b :: l) tabs = ([], .error (.unknownTag b)) := by
      unfold parse_record
      rw [readExact_cons]
      dsimp only [List.headD]
      rw [hb]
    refine ⟨hrec, ?_⟩
    conv_lhs => rw [parse_loop]
    rw [hrec]
  · intro b l tabs out c' hmem heq
    obtain ⟨hnone, hhead⟩ := parse_record_err_unknown heq
    simp only [List.headD_cons] at hhead
    subst hhead
    fin_cases hmem <;> exact absurd hnone (by decide)

/-- Witness for C7: byte `0x42` is outside the enumeration and aborts the
decode with `UnknownTag 0x42`; byte `0x01` is inside and its record
(however it fails or succeeds) is never an `UnknownTag` error. -/
theorem c7_unknown_tag_aborts_witness :
    (RecordTag.tryFrom 0x42 = none ↔ 0x42 ∉ knownTagBytes) ∧
    (parse_record [0x42] Tables.empty =
      ([], .error (.unknownTag 0x42)) ∧
     parse_loop 1 [0x42] Tables.empty ⟨0, 0, 0, 0, 0⟩ =
      ([], .error (.unknownTag 0x42))) ∧
    parse_record [0x01] Tables.empty ≠
      ([], .error (.unknownTag 0x01)) := by
  refine ⟨c7_unknown_tag_aborts.1 0x42, ?_, ?_⟩
  · have h := c7_unknown_tag_aborts.2.1 0x42 [] Tables.empty ⟨0, 0, 0, 0, 0⟩ 0
      (by decide)
    exact h
  · exact c7_unknown_tag_aborts.2.2 0x01 [] Tables.empty []
      0x01 (by decide)

theorem utf8DecodeLossyFrom_start_cons (b : Nat) (rest : List Nat) :
    utf8DecodeLossyFrom .start (b :: rest) =
      (utf8StartByte b).1 ++ utf8DecodeLossyFrom (utf8StartByte b).2 rest :=
  rfl

theorem utf8DecodeLossyFrom_cont_last {lo hi b : Nat} (acc : Nat)
    (rest : List Nat) (h1 : lo ≤ b) (h2 : b ≤ hi) :
    utf8DecodeLossyFrom (.cont 0 acc lo hi) (b :: rest) =
      Char.ofNat (acc * 0x40 + (b - 0x80)) ::
        utf8DecodeLossyFrom .start rest := by
  simp [utf8DecodeLossyFrom, h1, h2]

theorem utf8DecodeLossyFrom_cont_step {lo hi b : Nat} (m acc : Nat)
    (rest : List Nat) (h1 : lo ≤ b) (h2 : b ≤ hi) :
    utf8DecodeLossyFrom (.cont (m + 1) acc lo hi) (b :: rest) =
      utf8DecodeLossyFrom (.cont m (acc * 0x40 + (b - 0x80)) 0x80 0xBF)
        rest := by
  simp [utf8DecodeLossyFrom, h1, h2]

theorem utf8StartByte_ascii {b : Nat} (h : b < 0x80) :
    utf8StartByte b = ([Char.ofNat b], .start) := by
  simp [utf8StartByte, h]

theorem utf8StartByte_two {b : Nat} (h1 : 0xC2 ≤ b) (h2 : b ≤ 0xDF) :
    utf8StartByte b = ([], .cont 0 (b - 0xC0) 0x80 0xBF) := by
  unfold utf8StartByte
  rw [if_neg (by omega), if_neg (by omega), if_pos h2]

theorem utf8StartByte_three {b : Nat} (h1 : 0xE0 ≤ b) (h2 : b ≤ 0xEF) :
    utf8StartByte b =
      ([], .cont 1 (b - 0xE0) (if b = 0xE0 then 0xA0 else 0x80)
        (if b = 0xED then 0x9F else 0xBF)) := by
  unfold utf8StartByte
  rw [if_neg (by omega), if_neg (by omega), if_neg (by omega), if_pos h2]

theorem utf8StartByte_four {b : Nat} (h1 : 0xF0 ≤ b) (h2 : b ≤ 0xF4) :
    utf8StartByte b =
      ([], .cont 2 (b - 0xF0) (if b = 0xF0 then 0x90 else 0x80)
        (if b = 0xF4 then 0x8F else 0xBF)) := by
  unfold utf8StartByte
  rw [if_neg (by omega), if_neg (by omega), if_neg (by omega),
    if_neg (by omega), if_pos h2]

theorem utf8Decode_enc2 (v : Nat) (l : List Nat) (h1 : 0x80 ≤ v)
    (h2 : v < 0x800) :
    utf8DecodeLossyFrom .start ([0xC0 + v / 0x40, 0x80 + v % 0x40] ++ l) =
      Char.ofNat v :: utf8DecodeLossyFrom .start l := by
  simp only [List.cons_append, List.nil_append]
  rw [utf8DecodeLossyFrom_start_cons, utf8StartByte_two (by omega) (by omega)]
  dsimp only
  rw [utf8DecodeLossyFrom_cont_last _ _ (by omega) (by omega)]
  have hv2 : (0xC0 + v / 0x40 - 0xC0) * 0x40 + (0x80 + v % 0x40 - 0x80) = v := by
    omega
  rw [hv2]
  rfl

theorem utf8Decode_enc3 (v : Nat) (l : List Nat) (h1 : 0x800 ≤ v)
    (h2 : v < 0x10000) (hval : v < 0xD800 ∨ 0xDFFF < v) :
    utf8DecodeLossyFrom .start
        ([0xE0 + v / 0x1000, 0x80 + v / 0x40 % 0x40, 0x80 + v % 0x40] ++ l) =
      Char.ofNat v :: utf8DecodeLossyFrom .start l := by
  rcases hval with hval | hval <;>
    (simp only [List.cons_append, List.nil_append]
     rw [utf8DecodeLossyFrom_start_cons,
       utf8StartByte_three (by omega) (by omega)]
     dsimp only
     rw [utf8DecodeLossyFrom_cont_step _ _ _ (by split <;> omega)
       (by split <;> omega)]
     rw [utf8DecodeLossyFrom_cont_last _ _ (by omega) (by omega)]
     have hv2 : ((0xE0 + v / 0x1000 - 0xE0) * 0x40 +
         (0x80 + v / 0x40 % 0x40 - 0x80)) * 0x40 + (0x80 + v % 0x40 - 0x80) =
         v := by omega
     rw [hv2]
     rfl)

theorem utf8Decode_enc4 (v : Nat) (l : List Nat) (h1 : 0x10000 ≤ v)
    (h2 : v < 0x110000) :
    utf8DecodeLossyFrom .start
        ([0xF0 + v / 0x40000, 0x80 + v / 0x1000 % 0x40,
          0x80 + v / 0x40 % 0x40, 0x80 + v % 0x40] ++ l) =
      Char.ofNat v :: utf8DecodeLossyFrom .start l := by
  simp only [List.cons_append, List.nil_append]
  rw [utf8DecodeLossyFrom_start_cons, utf8StartByte_four (by omega) (by omega)]
  dsimp only
  rw [utf8DecodeLossyFrom_cont_step _ _ _ (by split <;> omega)
    (by split <;> omega)]
  rw [utf8DecodeLossyFrom_cont_step _ _ _ (by omega) (by omega)]
  rw [utf8DecodeLossyFrom_cont_last _ _ (by omega) (by omega)]
  have hv2 : (((0xF0 + v / 0x40000 - 0xF0) * 0x40 +
      (0x80 + v / 0x1000 % 0x40 - 0x80)) * 0x40 +
      (0x80 + v / 0x40 % 0x40 - 0x80)) * 0x40 + (0x80 + v % 0x40 - 0x80) =
      v := by omega
  rw [hv2]
  rfl

theorem utf8DecodeLossyFrom_encodeChar (c : Char) (l : List Nat) :
    utf8DecodeLossyFrom .start (utf8EncodeChar c ++ l) =
      c :: utf8DecodeLossyFrom .start l := by
  have hval : Nat.isValidChar c.toNat := c.valid
  have hofnat : Char.ofNat c.toNat = c := Char.ofNat_toNat c
  have hlt : c.toNat < 0x110000 := by
    rcases hval with h | ⟨-, h⟩ <;> omega
  unfold utf8EncodeChar
  dsimp only
  by_cases h1 : c.toNat < 0x80
  · rw [if_pos h1]
    simp only [List.cons_append, List.nil_append]
    rw [utf8DecodeLossyFrom_start_cons, utf8StartByte_ascii h1]
    simp [hofnat]
  · rw [if_neg h1]
    by_cases h2 : c.toNat < 0x800
    · rw [if_pos h2, utf8Decode_enc2 _ _ (by omega) h2, hofnat]
    · rw [if_neg h2]
      by_cases h3 : c.toNat < 0x10000
      · have hv : c.toNat < 0xD800 ∨ 0xDFFF < c.toNat := by
          rcases hval with h | ⟨h, -⟩
          · exact Or.inl h
          · exact Or.inr h
        rw [if_pos h3, utf8Decode_enc3 _ _ (by omega) h3 hv, hofnat]
      · rw [if_neg h3, utf8Decode_enc4 _ _ (by omega) hlt, hofnat]

theorem utf8DecodeLossy_encodeList (cs : List Char) :
    utf8DecodeLossyFrom .start (utf8EncodeList cs) = cs := by
  induction cs with
  | nil => rfl
  | cons c cs ih =>
    show utf8DecodeLossyFrom .start (utf8EncodeChar c ++ utf8EncodeList cs) = _
    rw [utf8DecodeLossyFrom_encodeChar, ih]

theorem from_utf8_lossy_utf8Encode (s : String) :
    from_utf8_lossy (utf8Encode s) = s := by
  unfold from_utf8_lossy utf8Encode utf8DecodeLossy
  rw [utf8DecodeLossy_encodeList]



/-- C6: decoding a Utf8String record whose declared payload length is
consistent with its fields (8-byte id plus the UTF-8 bytes of a text `s`)
stores exactly `s` in the string table: the lossy UTF-8 decode round-trips
identically on valid UTF-8 input, and the immediate same-id lookup
returns `s`. -/
theorem c6_utf8_string_table_roundtrip :
    ∀ (s : String) (idb time_buf bytes_buf l : List Nat) (tabs : Tables),
      idb.length = 8 → time_buf.length = 4 → bytes_buf.length = 4 →
      u32_from_be bytes_buf = 8 + (utf8Encode s).length →
      parse_record
          (0x01 :: (time_buf ++ (bytes_buf ++ (idb ++ (utf8Encode s ++ l)))))
          tabs =
        ([], .ok ({ tag := .Utf8String, time := u32_from_be time_buf,
                    bytes := u32_from_be bytes_buf },
          { tabs with string_table :=
              tableInsert (u64_from_be idb) s tabs.string_table }, l)) ∧
      tableGet (tableInsert (u64_from_be idb) s tabs.string_table)
        (u64_from_be idb) = some s := by
  intro s idb tb bb l tabs hid htb hbb hlen
  refine ⟨?_, tableGet_insert_self _ _ _⟩
  unfold parse_record
  rw [readExact_cons]
  dsimp only [List.headD]
  rw [show RecordTag.tryFrom 0x01 = some .Utf8String from rfl]
  dsimp only
  rw [readExact_append htb]
  dsimp only
  rw [readExact_append hbb]
  dsimp only
  unfold parse_utf8_string_record
  rw [readExact_append hid]
  dsimp only
  rw [hlen, Nat.add_sub_cancel_left, readExact_append rfl]
  dsimp only
  rw [from_utf8_lossy_utf8Encode]

/-- Witness for C6: the scenario-A string record (id 1, text "Main")
stores "Main" under key 1 and the lookup returns it. -/
theorem c6_utf8_string_table_roundtrip_witness :
    parse_record recStringA Tables.empty =
      ([], .ok ({ tag := .Utf8String, time := 0, bytes := 12 },
        ⟨[(1, "Main")], [], []⟩, [])) ∧
    tableGet [(1, "Main")] 1 = some "Main" := by
  obtain ⟨h1, h2⟩ := c6_utf8_string_table_roundtrip "Main"
    (be64 1) (be32 0) (be32 12) [] Tables.empty
    rfl rfl rfl (by decide)
  have hstream : recStringA =
      0x01 :: (be32 0 ++ (be32 12 ++
        (be64 1 ++ (utf8Encode "Main" ++ [])))) := by
    decide
  rw [hstream, h1]
  exact ⟨rfl, h2⟩

end HprofCat
